import Mathlib

/-!
Shallow embedding of the `aarch64-esr-decoder` crate (`src/lib.rs`): a decoder
turning a 64-bit AArch64 Exception Syndrome Register value into a tree of named
bit-fields with human-readable descriptions.  Machine integers are modelled as
`Nat`; the bit-range extraction `register.get_bits(start..end)` becomes
division and remainder by powers of two.  A Rust function returning
`Result<T, DecodeError>` becomes `Except DecodeError T`; a function that can
additionally panic (via the `assert!` inside `as_bit`) returns an `Outcome`,
whose third constructor `panicked` records the panic.
-/

set_option linter.unusedVariables false

namespace Esr

/-- Bit-range extraction: the bits of `register` in the half-open range
`[start, stop)`, right-shifted to position 0 (the semantics of
`bit_field::BitField::get_bits` for in-range `u64` arguments). -/
def getBits (register : Nat) (start stop : Nat) : Nat :=
  (register / 2 ^ start) % 2 ^ (stop - start)

/-- `DecodeError` from `src/lib.rs`: an error decoding an ESR value. -/
inductive DecodeError where
  /-- A RES0 field was not 0. -/
  | InvalidRes0 (res0 : Nat)
  /-- The EC field had an invalid value. -/
  | InvalidEc (ec : Nat)
  /-- The DFSC or IFSC field had an invalid value. -/
  | InvalidFsc (fsc : Nat)
  /-- The SET field had an invalid value. -/
  | InvalidSet (set : Nat)
  /-- The AM field had an invalid value. -/
  | InvalidAm (am : Nat)
  deriving DecidableEq, Repr

mutual
/-- `Decoded` from `src/lib.rs`: information about the decoding of a field
(or of the entire ESR value): an optional description and any sub-fields. -/
inductive Decoded where
  | mk (description : Option String) (fields : List FieldInfo)

/-- `FieldInfo` from `src/lib.rs`: information about a particular field:
its short name, the index of its lowest bit, its width in bits, its value,
and more information about the field and subfields, if available. -/
inductive FieldInfo where
  | mk (name : String) (start : Nat) (width : Nat) (value : Nat)
      (decoded : Option Decoded)
end

def Decoded.description : Decoded → Option String
  | .mk d _ => d

def Decoded.fields : Decoded → List FieldInfo
  | .mk _ f => f

def FieldInfo.name : FieldInfo → String
  | .mk n _ _ _ _ => n

def FieldInfo.start : FieldInfo → Nat
  | .mk _ s _ _ _ => s

def FieldInfo.width : FieldInfo → Nat
  | .mk _ _ w _ _ => w

def FieldInfo.value : FieldInfo → Nat
  | .mk _ _ _ v _ => v

def FieldInfo.decoded : FieldInfo → Option Decoded
  | .mk _ _ _ _ d => d

/-- The possible outcomes of running a piece of Rust code that returns
`Result<α, DecodeError>` but may also panic. -/
inductive Outcome (α : Type) where
  | panicked : Outcome α
  | error : DecodeError → Outcome α
  | ok : α → Outcome α

/-- Lift an infallible-but-panicking computation (modelled as `Option`,
`none` = panic) into `Outcome`. -/
def Outcome.ofOption : Option α → Outcome α
  | none => .panicked
  | some a => .ok a

/-- Lift a panic-free fallible computation into `Outcome`. -/
def Outcome.ofExcept : Except DecodeError α → Outcome α
  | .error e => .error e
  | .ok a => .ok a

/-- `FieldInfo::get`: extract the bit range `[start, stop)` of `register`
into a fresh, undecoded field. -/
def FieldInfo.get (register : Nat) (name : String) (start stop : Nat) :
    FieldInfo :=
  .mk name start (stop - start) (getBits register start stop) none

/-- `FieldInfo::get_bit`: the single bit `bit` of `register` as a field. -/
def FieldInfo.get_bit (register : Nat) (name : String) (bit : Nat) :
    FieldInfo :=
  FieldInfo.get register name bit (bit + 1)

/-- `FieldInfo::with_decoded`: attach decoding information to a field. -/
def FieldInfo.with_decoded (f : FieldInfo) (d : Decoded) : FieldInfo :=
  .mk f.name f.start f.width f.value (some d)

/-- `FieldInfo::with_description`: attach a plain description with no
sub-fields. -/
def FieldInfo.with_description (f : FieldInfo) (description : String) :
    FieldInfo :=
  f.with_decoded (.mk (some description) [])

/-- `FieldInfo::as_bit`: `assert!(self.width == 1)` then compare the value
with 1; the assertion failure is modelled as `none`. -/
def FieldInfo.as_bit (f : FieldInfo) : Option Bool :=
  if f.width = 1 then some (f.value = 1) else none

/-- `FieldInfo::describe_bit`: describe a width-1 field with a boolean
describer; panics (`none`) if the width is not 1. -/
def FieldInfo.describe_bit (f : FieldInfo) (describer : Bool → String) :
    Option FieldInfo :=
  match f.as_bit with
  | none => none
  | some bit => some (f.with_description (describer bit))

/-- `FieldInfo::describe`: describe a field with a fallible describer. -/
def FieldInfo.describe (f : FieldInfo)
    (describer : Nat → Except DecodeError String) :
    Except DecodeError FieldInfo :=
  match describer f.value with
  | .error e => .error e
  | .ok s => .ok (f.with_description s)

/-- `FieldInfo::check_res0`: fail with `InvalidRes0` when the value is not
zero. -/
def FieldInfo.check_res0 (f : FieldInfo) : Except DecodeError FieldInfo :=
  if f.value ≠ 0 then .error (.InvalidRes0 f.value) else .ok f

/-- `decode_iss_res0` from `src/lib.rs`: an ISS that is entirely reserved
must be zero. -/
def decode_iss_res0 (iss : Nat) : Except DecodeError Decoded :=
  if iss = 0 then .ok (.mk (some "ISS is RES0") [])
  else .error (.InvalidRes0 iss)

/-- `describe_il` from `src/lib.rs`. -/
def describe_il (il : Bool) : String :=
  if il then "32-bit instruction trapped" else "16-bit instruction trapped"

def Outcome.bind : Outcome α → (α → Outcome β) → Outcome β
  | .panicked, _ => .panicked
  | .error e, _ => .error e
  | .ok a, f => f a

instance : Monad Outcome where
  pure := .ok
  bind := Outcome.bind

/-- Modelled from the spec: describer for the ISV bit of a Data Abort ISS
("whether syndrome detail is valid"); the two strings are fixed by the
`data_abort` and `data_abort_isv` tests in `src/lib.rs`. -/
def describe_isv (isv : Bool) : String :=
  if isv then "Valid instruction syndrome" else "No valid instruction syndrome"

/-- Modelled from the spec: SAS access-size describer
(byte/halfword/word/doubleword for the four 2-bit codes; "halfword" for 1 is
fixed by the `data_abort_isv` test).  Total because all four codes are
defined. -/
def describe_sas (sas : Nat) : String :=
  match sas with
  | 0 => "byte"
  | 1 => "halfword"
  | 2 => "word"
  | _ => "doubleword"

/-- Modelled from the spec: SF describer (64-bit vs 32-bit register;
"32-bit wide register" for 0 is fixed by the `data_abort_isv` test). -/
def describe_sf (sf : Bool) : String :=
  if sf then "64-bit wide register" else "32-bit wide register"

/-- Modelled from the spec: AR describer (acquire/release semantics;
"No acquire/release semantics" for 0 is fixed by the `data_abort_isv`
test). -/
def describe_ar (ar : Bool) : String :=
  if ar then "Acquire/release semantics" else "No acquire/release semantics"

/-- Modelled from the spec: FnV describer (whether the fault address register
is valid); both strings are fixed by the tests in `src/lib.rs`. -/
def describe_fnv (fnv : Bool) : String :=
  if fnv then "FAR is not valid, it holds an unknown value"
  else "FAR is valid"

/-- Modelled from the spec: WnR (write-not-read) describer; the string for 1
is fixed by the tests in `src/lib.rs`. -/
def describe_wnr (wnr : Bool) : String :=
  if wnr then "Abort caused by writing to memory"
  else "Abort caused by reading from memory"

/-- Modelled from the spec: SET (Synchronous Error Type) enumerated
describer; the strings for codes 0, 2 and 3 are fixed by the tests in
`src/lib.rs`; any other code yields `InvalidSet`. -/
def describe_set (set : Nat) : Except DecodeError String :=
  match set with
  | 0 => .ok "Recoverable state (UER)"
  | 2 => .ok "Uncontainable (UC)"
  | 3 => .ok "Restartable state (UEO)"
  | _ => .error (.InvalidSet set)

/-- Modelled from the spec: DFSC/IFSC (fault status code) enumerated
describer.  The spec names the fault-subtype families but only the code-16
string is attested (by the tests in `src/lib.rs`); every other code is
modelled as `InvalidFsc`. -/
def describe_fsc (fsc : Nat) : Except DecodeError String :=
  match fsc with
  | 16 =>
    .ok
      "Synchronous External abort, not on translation table walk or hardware update of translation table."
  | _ => .error (.InvalidFsc fsc)

/-- Modelled from the spec: describer distinguishing conditional from
unconditional execution (spec, section on the WF* sub-decoder). -/
def describe_cv (cv : Bool) : String :=
  if cv then "COND is valid" else "COND is not valid"

/-- Modelled from the spec: describer for the transfer direction of a
coprocessor access. -/
def describe_direction (direction : Bool) : String :=
  if direction then "Read from system register"
  else "Write to system register"

/-- Modelled from the spec: AM (addressing mode) enumerated describer for
LDC/STC traps; codes outside the defined set yield `InvalidAm`.  The exact
defined set is not given by the spec; a four-code set is used here. -/
def describe_am (am : Nat) : Except DecodeError String :=
  match am with
  | 0 => .ok "Immediate unindexed"
  | 1 => .ok "Immediate post-indexed"
  | 2 => .ok "Immediate offset"
  | 3 => .ok "Immediate pre-indexed"
  | _ => .error (.InvalidAm am)

/-- Modelled from the spec: `decode_iss_data_abort` (the crate's
`abort.rs` is not part of the given sources).  Layout per the spec's Abort
sub-decoder section: ISV(24) selects the syndrome fields SAS(23:22),
SSE(21), SRT(20:16), SF(15), AR(14) when set, or a single RES0(23:14) range
checked against zero when clear; common fields VNCR(13), SET(12:11),
FnV(10), EA(9), CM(8), S1PTW(7), WnR(6), DFSC(5:0) follow.  Field order and
described/undescribed status are fixed by the `data_abort` and
`data_abort_isv` tests in `src/lib.rs`. -/
def decode_iss_data_abort (iss : Nat) : Outcome Decoded := do
  let isv ← Outcome.ofOption
    ((FieldInfo.get_bit iss "ISV" 24).describe_bit describe_isv)
  let isvBit ← Outcome.ofOption isv.as_bit
  let intruction_syndrome_fields ←
    if isvBit then do
      let sas := FieldInfo.get iss "SAS" 22 24
      let sas := sas.with_description (describe_sas sas.value)
      let sse := FieldInfo.get_bit iss "SSE" 21
      let srt := FieldInfo.get iss "SRT" 16 21
      let sf ← Outcome.ofOption
        ((FieldInfo.get_bit iss "SF" 15).describe_bit describe_sf)
      let ar ← Outcome.ofOption
        ((FieldInfo.get_bit iss "AR" 14).describe_bit describe_ar)
      pure [sas, sse, srt, sf, ar]
    else do
      let res0 ← Outcome.ofExcept ((FieldInfo.get iss "RES0" 14 24).check_res0)
      pure [res0]
  let vncr := FieldInfo.get_bit iss "VNCR" 13
  let set ← Outcome.ofExcept ((FieldInfo.get iss "SET" 11 13).describe describe_set)
  let fnv ← Outcome.ofOption
    ((FieldInfo.get_bit iss "FnV" 10).describe_bit describe_fnv)
  let ea := FieldInfo.get_bit iss "EA" 9
  let cm := FieldInfo.get_bit iss "CM" 8
  let s1ptw := FieldInfo.get_bit iss "S1PTW" 7
  let wnr ← Outcome.ofOption
    ((FieldInfo.get_bit iss "WnR" 6).describe_bit describe_wnr)
  let dfsc ← Outcome.ofExcept ((FieldInfo.get iss "DFSC" 0 6).describe describe_fsc)
  pure (.mk none
    (isv :: intruction_syndrome_fields ++
      [vncr, set, fnv, ea, cm, s1ptw, wnr, dfsc]))

/-- Modelled from the spec: `decode_iss_instruction_abort` (the crate's
`abort.rs` is not part of the given sources).  Layout per the spec's Abort
sub-decoder section: RES0(24:13), SET(12:11), FnV(10), EA(9), RES0(8),
S1PTW(7), RES0(6), IFSC(5:0); widths and field order are fixed by the
`instruction_abort` test in `src/lib.rs`. -/
def decode_iss_instruction_abort (iss : Nat) : Outcome Decoded := do
  let res0a ← Outcome.ofExcept ((FieldInfo.get iss "RES0" 13 25).check_res0)
  let set ← Outcome.ofExcept ((FieldInfo.get iss "SET" 11 13).describe describe_set)
  let fnv ← Outcome.ofOption
    ((FieldInfo.get_bit iss "FnV" 10).describe_bit describe_fnv)
  let ea := FieldInfo.get_bit iss "EA" 9
  let res0b ← Outcome.ofExcept ((FieldInfo.get_bit iss "RES0" 8).check_res0)
  let s1ptw := FieldInfo.get_bit iss "S1PTW" 7
  let res0c ← Outcome.ofExcept ((FieldInfo.get_bit iss "RES0" 6).check_res0)
  let ifsc ← Outcome.ofExcept ((FieldInfo.get iss "IFSC" 0 6).describe describe_fsc)
  pure (.mk none [res0a, set, fnv, ea, res0b, s1ptw, res0c, ifsc])

/-- Modelled from the spec: `decode_iss_wf` (the crate's `wf.rs` is not part
of the given sources).  The spec names condition-code and instruction-type
sub-fields plus a reserved range validated against zero, but leaves the
exact bit boundaries to the architecture reference; the boundaries used here
are CV(24), COND(23:20), RES0(19:1), TI(0). -/
def decode_iss_wf (iss : Nat) : Outcome Decoded := do
  let cv ← Outcome.ofOption
    ((FieldInfo.get_bit iss "CV" 24).describe_bit describe_cv)
  let cond := FieldInfo.get iss "COND" 20 24
  let res0 ← Outcome.ofExcept ((FieldInfo.get iss "RES0" 1 20).check_res0)
  let ti ← Outcome.ofOption
    ((FieldInfo.get_bit iss "TI" 0).describe_bit
      (fun ti => if ti then "WFE trapped" else "WFI trapped"))
  pure (.mk none [cv, cond, res0, ti])

/-- Modelled from the spec: `decode_iss_mcr` (the crate's `mcr.rs` is not
part of the given sources).  The spec names opcode, coprocessor-register and
general-purpose-register index sub-fields plus a reserved range; the
boundaries used here are CV(24), COND(23:20), Opc2(19:17), Opc1(16:14),
CRn(13:10), Rt(9:5), CRm(4:1), Direction(0). -/
def decode_iss_mcr (iss : Nat) : Outcome Decoded := do
  let cv ← Outcome.ofOption
    ((FieldInfo.get_bit iss "CV" 24).describe_bit describe_cv)
  let cond := FieldInfo.get iss "COND" 20 24
  let opc2 := FieldInfo.get iss "Opc2" 17 20
  let opc1 := FieldInfo.get iss "Opc1" 14 17
  let crn := FieldInfo.get iss "CRn" 10 14
  let rt := FieldInfo.get iss "Rt" 5 10
  let crm := FieldInfo.get iss "CRm" 1 5
  let direction ← Outcome.ofOption
    ((FieldInfo.get_bit iss "Direction" 0).describe_bit describe_direction)
  pure (.mk none [cv, cond, opc2, opc1, crn, rt, crm, direction])

/-- Modelled from the spec: `decode_iss_mcrr` (the crate's `mcr.rs` is not
part of the given sources).  Double register transfer variant: CV(24),
COND(23:20), Opc1(19:16), RES0(15), Rt2(14:10), Rt(9:5), CRm(4:1),
Direction(0). -/
def decode_iss_mcrr (iss : Nat) : Outcome Decoded := do
  let cv ← Outcome.ofOption
    ((FieldInfo.get_bit iss "CV" 24).describe_bit describe_cv)
  let cond := FieldInfo.get iss "COND" 20 24
  let opc1 := FieldInfo.get iss "Opc1" 16 20
  let res0 ← Outcome.ofExcept ((FieldInfo.get_bit iss "RES0" 15).check_res0)
  let rt2 := FieldInfo.get iss "Rt2" 10 15
  let rt := FieldInfo.get iss "Rt" 5 10
  let crm := FieldInfo.get iss "CRm" 1 5
  let direction ← Outcome.ofOption
    ((FieldInfo.get_bit iss "Direction" 0).describe_bit describe_direction)
  pure (.mk none [cv, cond, opc1, res0, rt2, rt, crm, direction])

/-- Modelled from the spec: `decode_iss_ldc` (the crate's `ldc.rs` is not
part of the given sources).  Register and addressing-mode sub-fields plus a
reserved range validated against zero; the boundaries used here are CV(24),
COND(23:20), imm8(19:12), RES0(11:10), Rn(9:5), Offset(4), AM(3:1),
Direction(0), with the enumerated AM describer yielding `InvalidAm` on
undefined codes. -/
def decode_iss_ldc (iss : Nat) : Outcome Decoded := do
  let cv ← Outcome.ofOption
    ((FieldInfo.get_bit iss "CV" 24).describe_bit describe_cv)
  let cond := FieldInfo.get iss "COND" 20 24
  let imm8 := FieldInfo.get iss "imm8" 12 20
  let res0 ← Outcome.ofExcept ((FieldInfo.get iss "RES0" 10 12).check_res0)
  let rn := FieldInfo.get iss "Rn" 5 10
  let offset := FieldInfo.get_bit iss "Offset" 4
  let am ← Outcome.ofExcept ((FieldInfo.get iss "AM" 1 4).describe describe_am)
  let direction ← Outcome.ofOption
    ((FieldInfo.get_bit iss "Direction" 0).describe_bit describe_direction)
  pure (.mk none [cv, cond, imm8, res0, rn, offset, am, direction])

/-- The EC dispatch of `decode` in `src/lib.rs`: the inline `match` on
`ec.value`, producing the class description and the optional decoding of the
ISS value, or `InvalidEc` for any EC value absent from the table. -/
def decodeClassIss (ec iss : Nat) : Outcome (String × Option Decoded) :=
  match ec with
  | 0b000000 => do
    let d ← Outcome.ofExcept (decode_iss_res0 iss)
    pure ("Unknown reason", some d)
  | 0b000001 => do
    let d ← decode_iss_wf iss
    pure ("Wrapped WF* instruction execution", some d)
  | 0b000011 => do
    let d ← decode_iss_mcr iss
    pure ("Trapped MCR or MRC access with coproc=0b1111", some d)
  | 0b000100 => do
    let d ← decode_iss_mcrr iss
    pure ("Trapped MCRR or MRRC access with coproc=0b1111", some d)
  | 0b000101 => do
    let d ← decode_iss_mcr iss
    pure ("Trapped MCR or MRC access with coproc=0b1110", some d)
  | 0b000110 => do
    let d ← decode_iss_ldc iss
    pure ("Trapped LDC or STC access", some d)
  | 0b000111 =>
    pure ("Trapped access to SVE, Advanced SIMD or floating point", none)
  | 0b001010 =>
    pure
      ("Trapped execution of an LD64B, ST64B, ST64BV, or ST64BV0 instruction",
        none)
  | 0b001100 => pure ("Trapped MRRC access with (coproc==0b1110)", none)
  | 0b001101 => pure ("Branch Target Exception", none)
  | 0b001110 => do
    let d ← Outcome.ofExcept (decode_iss_res0 iss)
    pure ("Illegal Execution state", some d)
  | 0b010001 => pure ("SVC instruction execution in AArch32 state", none)
  | 0b010101 => pure ("SVC instruction execution in AArch64 state", none)
  | 0b011000 =>
    pure
      ("Trapped MSR, MRS or System instruction execution in AArch64 state",
        none)
  | 0b011001 => do
    let d ← Outcome.ofExcept (decode_iss_res0 iss)
    pure
      ("Access to SVE functionality trapped as a result of CPACR_EL1.ZEN, CPTR_EL2.ZEN, CPTR_EL2.TZ, or CPTR_EL3.EZ",
        some d)
  | 0b011100 =>
    pure
      ("Exception from a Pointer Authentication instruction authentication failure",
        none)
  | 0b100000 => do
    let d ← decode_iss_instruction_abort iss
    pure ("Instruction Abort from a lower Exception level", some d)
  | 0b100001 => do
    let d ← decode_iss_instruction_abort iss
    pure ("Instruction Abort taken without a change in Exception level",
      some d)
  | 0b100010 => do
    let d ← Outcome.ofExcept (decode_iss_res0 iss)
    pure ("PC alignment fault exception", some d)
  | 0b100100 => do
    let d ← decode_iss_data_abort iss
    pure ("Data Abort from a lower Exception level", some d)
  | 0b100101 => do
    let d ← decode_iss_data_abort iss
    pure ("Data Abort taken without a change in Exception level", some d)
  | 0b100110 => do
    let d ← Outcome.ofExcept (decode_iss_res0 iss)
    pure ("SP alignment fault exception", some d)
  | 0b101000 =>
    pure ("Trapped floating-point exception taken from AArch32 state", none)
  | 0b101100 =>
    pure ("Trapped floating-point exception taken from AArch64 state", none)
  | 0b101111 => pure ("SError interrupt", none)
  | 0b110000 =>
    pure ("Breakpoint exception from a lower Exception level", none)
  | 0b110001 =>
    pure ("Breakpoint exception taken without a change in Exception level",
      none)
  | 0b110010 =>
    pure ("Software Step exception from a lower Exception level", none)
  | 0b110011 =>
    pure ("Software Step exception taken without a change in Exception level",
      none)
  | 0b110100 =>
    pure ("Watchpoint exception from a lower Exception level", none)
  | 0b110101 =>
    pure ("Watchpoint exception taken without a change in Exception level",
      none)
  | 0b111000 => pure ("BKPT instruction execution in AArch32 state", none)
  | 0b111100 => pure ("BRK instruction execution in AArch64 state", none)
  | ec => .error (.InvalidEc ec)

/-- `decode` from `src/lib.rs`: decodes the given Exception Syndrome
Register value, or returns an error if it is not valid. -/
def decode (esr : Nat) : Outcome Decoded := do
  let res0 ← Outcome.ofExcept ((FieldInfo.get esr "RES0" 37 64).check_res0)
  let iss2 := FieldInfo.get esr "ISS2" 32 37
  let ec := FieldInfo.get esr "EC" 26 32
  let il ← Outcome.ofOption
    ((FieldInfo.get_bit esr "IL" 25).describe_bit describe_il)
  let iss := FieldInfo.get esr "ISS" 0 25
  let ci ← decodeClassIss ec.value iss.value
  let iss := FieldInfo.mk iss.name iss.start iss.width iss.value ci.2
  let ec := ec.with_decoded (.mk (some ci.1) [])
  pure (.mk (some ci.1) [res0, iss2, ec, il, iss])

/-- The set of EC values present in the dispatch table of `decode`
(`src/lib.rs`): exactly the non-default arms of the `match`. -/
def ec_defined (ec : Nat) : Bool :=
  ec ∈ [0b000000, 0b000001, 0b000011, 0b000100, 0b000101, 0b000110,
    0b000111, 0b001010, 0b001100, 0b001101, 0b001110, 0b010001, 0b010101,
    0b011000, 0b011001, 0b011100, 0b100000, 0b100001, 0b100010, 0b100100,
    0b100101, 0b100110, 0b101000, 0b101100, 0b101111, 0b110000, 0b110001,
    0b110010, 0b110011, 0b110100, 0b110101, 0b111000, 0b111100]

/-! ### Basic lemmas about the embedding -/

theorem getBits_lt (v start stop : Nat) :
    getBits v start stop < 2 ^ (stop - start) :=
  Nat.mod_lt _ (Nat.pos_pow_of_pos _ (by omega))

@[simp] theorem bind_eq (x : Outcome α) (f : α → Outcome β) :
    x >>= f = x.bind f := rfl

@[simp] theorem pure_eq (a : α) : (pure a : Outcome α) = .ok a := rfl

@[simp] theorem ok_bind (a : α) (f : α → Outcome β) :
    Outcome.bind (.ok a) f = f a := rfl

@[simp] theorem error_bind (e : DecodeError) (f : α → Outcome β) :
    Outcome.bind (.error e) f = .error e := rfl

@[simp] theorem panicked_bind (f : α → Outcome β) :
    Outcome.bind (.panicked : Outcome α) f = .panicked := rfl

@[simp] theorem ofOption_none :
    (Outcome.ofOption none : Outcome α) = .panicked := rfl

@[simp] theorem ofOption_some (a : α) :
    Outcome.ofOption (some a) = .ok a := rfl

@[simp] theorem ofExcept_error (e : DecodeError) :
    (Outcome.ofExcept (.error e) : Outcome α) = .error e := rfl

@[simp] theorem ofExcept_ok (a : α) : Outcome.ofExcept (.ok a) = .ok a := rfl

@[simp] theorem get_name (v : Nat) (n : String) (s e : Nat) :
    (FieldInfo.get v n s e).name = n := rfl

@[simp] theorem get_start (v : Nat) (n : String) (s e : Nat) :
    (FieldInfo.get v n s e).start = s := rfl

@[simp] theorem get_width (v : Nat) (n : String) (s e : Nat) :
    (FieldInfo.get v n s e).width = e - s := rfl

@[simp] theorem get_value (v : Nat) (n : String) (s e : Nat) :
    (FieldInfo.get v n s e).value = getBits v s e := rfl

@[simp] theorem get_decoded (v : Nat) (n : String) (s e : Nat) :
    (FieldInfo.get v n s e).decoded = none := rfl

theorem get_bit_eq (v : Nat) (n : String) (b : Nat) :
    FieldInfo.get_bit v n b = .mk n b 1 (getBits v b (b + 1)) none := by
  simp [FieldInfo.get_bit, FieldInfo.get, Nat.add_sub_cancel_left]

@[simp] theorem with_description_as_bit (f : FieldInfo) (s : String) :
    (f.with_description s).as_bit = f.as_bit := by
  cases f
  simp [FieldInfo.with_description, FieldInfo.with_decoded, FieldInfo.as_bit,
    FieldInfo.width, FieldInfo.value]

theorem mk_as_bit (n : String) (st v : Nat) (d : Option Decoded) :
    (FieldInfo.mk n st 1 v d).as_bit = some (decide (v = 1)) := by
  simp [FieldInfo.as_bit, FieldInfo.width, FieldInfo.value]

theorem describe_bit_get_bit (v : Nat) (n : String) (b : Nat)
    (d : Bool → String) :
    (FieldInfo.get_bit v n b).describe_bit d =
      some (.mk n b 1 (getBits v b (b + 1))
        (some (.mk (some (d (decide (getBits v b (b + 1) = 1)))) []))) := by
  simp [get_bit_eq, FieldInfo.describe_bit, mk_as_bit,
    FieldInfo.with_description, FieldInfo.with_decoded, FieldInfo.name,
    FieldInfo.start, FieldInfo.width, FieldInfo.value]

theorem check_res0_mk (n : String) (st w v : Nat) (d : Option Decoded) :
    (FieldInfo.mk n st w v d).check_res0 =
      if v = 0 then .ok (.mk n st w v d) else .error (.InvalidRes0 v) := by
  simp [FieldInfo.check_res0, FieldInfo.value]

theorem describe_mk (n : String) (st w v : Nat) (d : Option Decoded)
    (describer : Nat → Except DecodeError String) :
    (FieldInfo.mk n st w v d).describe describer =
      match describer v with
      | .error e => .error e
      | .ok s => .ok (.mk n st w v (some (.mk (some s) []))) := by
  simp [FieldInfo.describe, FieldInfo.value, FieldInfo.with_description,
    FieldInfo.with_decoded, FieldInfo.name, FieldInfo.start, FieldInfo.width]

/-!
### C1: RES0 enforcement
-/

/-- C1: for every input `v` whose bits [37,64) are non-zero, `decode v`
returns `InvalidRes0` carrying exactly the extracted sub-value of bits
[37,64), regardless of any other bits of `v` (in particular regardless of
the exception class): the reserved-field check precedes all EC-specific
logic. -/
theorem c1_res0_enforcement (v : Nat) (h : getBits v 37 64 ≠ 0) :
    decode v = .error (.InvalidRes0 (getBits v 37 64)) := by
  simp [decode, FieldInfo.get, check_res0_mk, h]

/-- Witness for C1 at the concrete input `2^37`. -/
theorem c1_res0_enforcement_witness :
    decode 137438953472 = .error (.InvalidRes0 1) :=
  c1_res0_enforcement 137438953472 (by decide)

/-- Unfolding of `decode` once the top-level RES0 check has passed: the
result is the EC dispatch followed by the fixed assembly of the five
top-level fields. -/
theorem decode_eq_of_res0 (v : Nat) (h : getBits v 37 64 = 0) :
    decode v =
      Outcome.bind (decodeClassIss (getBits v 26 32) (getBits v 0 25))
        (fun ci => .ok (.mk (some ci.1)
          [.mk "RES0" 37 27 0 none,
           .mk "ISS2" 32 5 (getBits v 32 37) none,
           .mk "EC" 26 6 (getBits v 26 32) (some (.mk (some ci.1) [])),
           .mk "IL" 25 1 (getBits v 25 26)
             (some (.mk (some (describe_il (decide (getBits v 25 26 = 1)))) [])),
           .mk "ISS" 0 25 (getBits v 0 25) ci.2])) := by
  simp [decode, FieldInfo.get, check_res0_mk, h, describe_bit_get_bit,
    FieldInfo.with_decoded, FieldInfo.name, FieldInfo.start, FieldInfo.width,
    FieldInfo.value]

/-- Any EC value absent from the dispatch table makes the dispatch fail with
`InvalidEc` carrying that value. -/
theorem decodeClassIss_undefined (ec iss : Nat) (h : ec_defined ec = false) :
    decodeClassIss ec iss = .error (.InvalidEc ec) := by
  unfold decodeClassIss
  split <;> first | exact absurd h (by decide) | rfl

/-!
### C2: EC closure
-/

/-- Counterexample to C2 as stated: the input `2^37 + 63 * 2^26` has EC bits
`0b111111`, a value absent from the dispatch table, yet `decode` does not
fail with `InvalidEc 63`: the top-level RES0 bits are non-zero and the
reserved-field check fires first, so the result is `InvalidRes0 1`. -/
theorem c2_counterexample :
    getBits 141666811904 26 32 = 63 ∧ ec_defined 63 = false ∧
      decode 141666811904 = .error (.InvalidRes0 1) ∧
      decode 141666811904 ≠ .error (.InvalidEc 63) := by
  have h : decode 141666811904 = .error (.InvalidRes0 1) := rfl
  exact ⟨by decide, by decide, h, by rw [h]; simp⟩

/-- C2 amended: for every input `v` whose bits [37,64) are zero and whose EC
bits [26,32) encode a value absent from the defined dispatch table,
`decode v` fails with `InvalidEc` carrying that EC value. -/
theorem c2_ec_closure (v : Nat) (hres : getBits v 37 64 = 0)
    (hec : ec_defined (getBits v 26 32) = false) :
    decode v = .error (.InvalidEc (getBits v 26 32)) := by
  rw [decode_eq_of_res0 v hres, decodeClassIss_undefined _ _ hec]
  rfl

/-- Witness for C2 (amended) at the concrete input `63 * 2^26`
(EC = 0b111111). -/
theorem c2_ec_closure_witness :
    decode 4227858432 = .error (.InvalidEc 63) :=
  c2_ec_closure 4227858432 (by decide) (by decide)

/-!
### C3: decoding of the zero register
-/

/-- C3: `decode 0` succeeds; its description is "Unknown reason", its EC
field has value 0 described "Unknown reason", its IL field has value 0
described "16-bit instruction trapped", and its ISS field carries a decoded
attachment with description "ISS is RES0" and no sub-fields. -/
theorem c3_decode_zero :
    decode 0 = .ok (.mk (some "Unknown reason")
      [.mk "RES0" 37 27 0 none,
       .mk "ISS2" 32 5 0 none,
       .mk "EC" 26 6 0 (some (.mk (some "Unknown reason") [])),
       .mk "IL" 25 1 0 (some (.mk (some "16-bit instruction trapped") [])),
       .mk "ISS" 0 25 0 (some (.mk (some "ISS is RES0") []))]) := rfl

/-!
### C5: the EC classes whose ISS is pure RES0
-/

/-- C5: for every input whose top-level RES0 bits are zero and whose EC
selects one of the ISS-is-RES0 classes (0b000000, 0b001110, 0b011001,
0b100010, 0b100110): a non-zero 25-bit ISS makes `decode` fail with
`InvalidRes0` carrying the ISS value, and a zero ISS makes `decode` succeed
with the ISS field decoded as "ISS is RES0". -/
theorem c5_iss_res0_classes (v : Nat) (hres : getBits v 37 64 = 0)
    (hec : getBits v 26 32 ∈ [0, 14, 25, 34, 38]) :
    (getBits v 0 25 ≠ 0 →
      decode v = .error (.InvalidRes0 (getBits v 0 25))) ∧
    (getBits v 0 25 = 0 → ∃ cls f0 f1 f2 f3,
      decode v = .ok (.mk (some cls)
        [f0, f1, f2, f3,
         .mk "ISS" 0 25 0 (some (.mk (some "ISS is RES0") []))])) := by
  rw [decode_eq_of_res0 v hres]
  simp only [List.mem_cons, List.mem_singleton, List.not_mem_nil, or_false]
    at hec
  rcases hec with h26 | h26 | h26 | h26 | h26 <;> rw [h26] <;>
    exact ⟨fun hiss => by simp [decodeClassIss, decode_iss_res0, hiss],
           fun hiss => by rw [hiss]; exact ⟨_, _, _, _, _, rfl⟩⟩

/-- Witness for C5 at the concrete inputs 0 (zero ISS, success) — the
hypothesis side with non-zero ISS is exercised at `decode 1`. -/
theorem c5_iss_res0_classes_witness :
    (1 ≠ 0 → decode 1 = .error (.InvalidRes0 1)) ∧
    ((0 : Nat) = 0 → ∃ cls f0 f1 f2 f3,
      decode 0 = .ok (.mk (some cls)
        [f0, f1, f2, f3,
         .mk "ISS" 0 25 0 (some (.mk (some "ISS is RES0") []))])) :=
  ⟨fun _ => ((c5_iss_res0_classes 1 (by decide) (by decide)).1 (by decide)),
   fun _ => ((c5_iss_res0_classes 0 (by decide) (by decide)).2 rfl)⟩

/-!
### C6: shape of every successful decode
-/

/-- C6: whenever `decode` succeeds, the root `Decoded` carries the class
description, its fields are exactly [RES0, ISS2, EC, IL, ISS] in that order,
the same class description is attached as the EC field's decoded
description, and the dispatch's ISS decoding (or `none`) is attached as the
ISS field's decoded payload. -/
theorem c6_assembly (v : Nat) (d : Decoded) (h : decode v = .ok d) :
    ∃ cls issd f0 f1 f3,
      decodeClassIss (getBits v 26 32) (getBits v 0 25) = .ok (cls, issd) ∧
      d.description = some cls ∧
      d.fields = [f0, f1,
        .mk "EC" 26 6 (getBits v 26 32) (some (.mk (some cls) [])), f3,
        .mk "ISS" 0 25 (getBits v 0 25) issd] ∧
      f0.name = "RES0" ∧ f1.name = "ISS2" ∧ f3.name = "IL" := by
  by_cases hres : getBits v 37 64 = 0
  · rw [decode_eq_of_res0 v hres] at h
    rcases hci : decodeClassIss (getBits v 26 32) (getBits v 0 25) with
      _ | e | ci
    · rw [hci] at h; exact absurd h (by simp [Outcome.bind])
    · rw [hci] at h; exact absurd h (by simp [Outcome.bind])
    · rw [hci] at h
      simp only [ok_bind, Outcome.ok.injEq] at h
      subst h
      exact ⟨ci.1, ci.2, _, _, _, by rw [← hci], rfl, rfl, rfl, rfl, rfl⟩
  · exact absurd h (by simp [decode, FieldInfo.get, check_res0_mk, hres])

/-- Witness for C6 at the concrete input 0. -/
theorem c6_assembly_witness :
    ∃ cls issd f0 f1 f3,
      decodeClassIss (getBits 0 26 32) (getBits 0 0 25) = .ok (cls, issd) ∧
      (Decoded.mk (some "Unknown reason")
        [.mk "RES0" 37 27 0 none,
         .mk "ISS2" 32 5 0 none,
         .mk "EC" 26 6 0 (some (.mk (some "Unknown reason") [])),
         .mk "IL" 25 1 0 (some (.mk (some "16-bit instruction trapped") [])),
         .mk "ISS" 0 25 0
           (some (.mk (some "ISS is RES0") []))]).description = some cls ∧
      (Decoded.mk (some "Unknown reason")
        [.mk "RES0" 37 27 0 none,
         .mk "ISS2" 32 5 0 none,
         .mk "EC" 26 6 0 (some (.mk (some "Unknown reason") [])),
         .mk "IL" 25 1 0 (some (.mk (some "16-bit instruction trapped") [])),
         .mk "ISS" 0 25 0
           (some (.mk (some "ISS is RES0") []))]).fields = [f0, f1,
        .mk "EC" 26 6 (getBits 0 26 32) (some (.mk (some cls) [])), f3,
        .mk "ISS" 0 25 (getBits 0 0 25) issd] ∧
      f0.name = "RES0" ∧ f1.name = "ISS2" ∧ f3.name = "IL" :=
  c6_assembly 0 _ rfl

/-!
### C8: determinism
-/

/-- C8: `decode` is deterministic — two calls on the same 64-bit input yield
structurally equal results.  In this embedding `decode` is a pure function,
so the property is definitional. -/
theorem c8_deterministic : ∀ v : Nat, decode v = decode v := fun _ => rfl

theorem check_res0_get (v : Nat) (n : String) (s e : Nat) :
    (FieldInfo.get v n s e).check_res0 =
      if getBits v s e = 0 then .ok (FieldInfo.get v n s e)
      else .error (.InvalidRes0 (getBits v s e)) := by
  simp [FieldInfo.get, check_res0_mk]

theorem describe_get (v : Nat) (n : String) (s e : Nat)
    (describer : Nat → Except DecodeError String) :
    (FieldInfo.get v n s e).describe describer =
      match describer (getBits v s e) with
      | .error er => .error er
      | .ok str =>
        .ok (.mk n s (e - s) (getBits v s e) (some (.mk (some str) []))) := by
  simp [FieldInfo.get, describe_mk]

/-!
### C4: the ISV bit selects the Data Abort ISS sub-layout
-/

/-- C4: in a successfully decoded Data Abort ISS the set of sub-fields is
selected by the ISV bit (bit 24).  When ISV is 0 the decoded fields start
with the ISV field described "No valid instruction syndrome" followed by a
single RES0 field covering bits 23:14 whose extracted value is zero.  When
ISV is 1 they instead start with the ISV field described "Valid instruction
syndrome" followed by SAS (bits 23:22), SSE (bit 21), SRT (bits 20:16),
SF (bit 15) and AR (bit 14), with SAS, SF and AR carrying descriptions. -/
theorem c4_data_abort_isv (issv : Nat) (d : Decoded)
    (h : decode_iss_data_abort issv = .ok d) :
    (getBits issv 24 25 = 0 →
      ∃ rest, d.fields =
        .mk "ISV" 24 1 0
            (some (.mk (some "No valid instruction syndrome") []))
          :: .mk "RES0" 14 10 0 none :: rest ∧
        getBits issv 14 24 = 0) ∧
    (getBits issv 24 25 = 1 →
      ∃ rest s1 s2 s3, d.fields =
        .mk "ISV" 24 1 1 (some (.mk (some "Valid instruction syndrome") []))
          :: .mk "SAS" 22 2 (getBits issv 22 24) (some (.mk (some s1) []))
          :: .mk "SSE" 21 1 (getBits issv 21 22) none
          :: .mk "SRT" 16 5 (getBits issv 16 21) none
          :: .mk "SF" 15 1 (getBits issv 15 16) (some (.mk (some s2) []))
          :: .mk "AR" 14 1 (getBits issv 14 15) (some (.mk (some s3) []))
          :: rest) := by
  have hlt := getBits_lt issv 24 25
  have hb : getBits issv 24 25 = 0 ∨ getBits issv 24 25 = 1 := by
    simp only [show (25 : Nat) - 24 = 1 from rfl, pow_one] at hlt; omega
  unfold decode_iss_data_abort at h
  rcases hb with hb | hb
  · -- ISV = 0: the RES0(23:14) branch
    by_cases hres : getBits issv 14 24 = 0
    · rcases hset : describe_set (getBits issv 11 13) with e | s
      · simp [hb, hres, hset, describe_bit_get_bit, check_res0_mk,
          describe_mk, mk_as_bit, describe_isv, FieldInfo.get] at h
      · rcases hdfsc : describe_fsc (getBits issv 0 6) with e2 | s2
        · simp [hb, hres, hset, hdfsc, describe_bit_get_bit, check_res0_mk,
            describe_mk, mk_as_bit, describe_isv, FieldInfo.get] at h
        · simp [hb, hres, hset, hdfsc, describe_bit_get_bit,
            check_res0_mk, describe_mk, mk_as_bit, describe_isv,
            FieldInfo.get, Outcome.ok.injEq] at h
          subst h
          refine ⟨fun _ => ?_, fun h1 => by omega⟩
          exact ⟨_, rfl, hres⟩
    · rcases hset : describe_set (getBits issv 11 13) with e | s <;>
      rcases hdfsc : describe_fsc (getBits issv 0 6) with e2 | s2 <;>
        simp [hb, hres, hset, hdfsc, describe_bit_get_bit, check_res0_mk,
          describe_mk, mk_as_bit, describe_isv, FieldInfo.get] at h
  · -- ISV = 1: the instruction-syndrome branch
    rcases hset : describe_set (getBits issv 11 13) with e | s
    · simp [hb, hset, describe_bit_get_bit, check_res0_mk, describe_mk,
        mk_as_bit, describe_isv, FieldInfo.get] at h
    · rcases hdfsc : describe_fsc (getBits issv 0 6) with e2 | s2
      · simp [hb, hset, hdfsc, describe_bit_get_bit, check_res0_mk,
          describe_mk, mk_as_bit, describe_isv, FieldInfo.get] at h
      · simp [hb, hset, hdfsc, describe_bit_get_bit, check_res0_mk,
          describe_mk, mk_as_bit, describe_isv, FieldInfo.get,
          FieldInfo.with_description, FieldInfo.with_decoded,
          FieldInfo.name, FieldInfo.start, FieldInfo.width,
          FieldInfo.value, Outcome.ok.injEq] at h
        subst h
        refine ⟨fun h0 => by omega, fun _ => ?_⟩
        exact ⟨_, _, _, _, rfl⟩

/-- Witness for C4 at the two concrete ISS values from the repository's
`data_abort` (ISV = 0) and `data_abort_isv` (ISV = 1) tests. -/
theorem c4_data_abort_isv_witness :
    (∃ d, decode_iss_data_abort 80 = .ok d ∧
      (getBits 80 24 25 = 0 →
        ∃ rest, d.fields =
          .mk "ISV" 24 1 0
              (some (.mk (some "No valid instruction syndrome") []))
            :: .mk "RES0" 14 10 0 none :: rest ∧
          getBits 80 14 24 = 0)) ∧
    (∃ d, decode_iss_data_abort 22163536 = .ok d ∧
      (getBits 22163536 24 25 = 1 →
        ∃ rest s1 s2 s3, d.fields =
          .mk "ISV" 24 1 1
              (some (.mk (some "Valid instruction syndrome") []))
            :: .mk "SAS" 22 2 (getBits 22163536 22 24)
                (some (.mk (some s1) []))
            :: .mk "SSE" 21 1 (getBits 22163536 21 22) none
            :: .mk "SRT" 16 5 (getBits 22163536 16 21) none
            :: .mk "SF" 15 1 (getBits 22163536 15 16)
                (some (.mk (some s2) []))
            :: .mk "AR" 14 1 (getBits 22163536 14 15)
                (some (.mk (some s3) []))
            :: rest)) :=
  ⟨⟨_, rfl, (c4_data_abort_isv 80 _ rfl).1⟩,
   ⟨_, rfl, (c4_data_abort_isv 22163536 _ rfl).2⟩⟩

/-!
### C7: the width invariant, `value < 2^width` at every nesting level
-/

mutual
/-- Width invariant of a single field: its value fits in its width, and its
decoded attachment (if any) is well-formed. -/
def FieldInfo.wfb : FieldInfo → Bool
  | .mk _ _ w v d => decide (v < 2 ^ w) && decodedOptWF d

/-- Width invariant of an optional decoded attachment. -/
def decodedOptWF : Option Decoded → Bool
  | none => true
  | some d => d.wfb

/-- Width invariant of a decoding: all its fields are well-formed. -/
def Decoded.wfb : Decoded → Bool
  | .mk _ fs => fieldsWF fs

/-- Width invariant of a list of fields. -/
def fieldsWF : List FieldInfo → Bool
  | [] => true
  | f :: fs => f.wfb && fieldsWF fs
end

@[simp] theorem wfb_mk (n : String) (st w v : Nat) (d : Option Decoded) :
    (FieldInfo.mk n st w v d).wfb = (decide (v < 2 ^ w) && decodedOptWF d) :=
  by rw [FieldInfo.wfb]

@[simp] theorem decoded_wfb_mk (ds : Option String) (fs : List FieldInfo) :
    (Decoded.mk ds fs).wfb = fieldsWF fs := by rw [Decoded.wfb]

@[simp] theorem decodedOptWF_none : decodedOptWF none = true := by
  rw [decodedOptWF]

@[simp] theorem decodedOptWF_some (d : Decoded) :
    decodedOptWF (some d) = d.wfb := by rw [decodedOptWF]

@[simp] theorem fieldsWF_nil : fieldsWF [] = true := by rw [fieldsWF]

@[simp] theorem fieldsWF_cons (f : FieldInfo) (fs : List FieldInfo) :
    fieldsWF (f :: fs) = (f.wfb && fieldsWF fs) := by rw [fieldsWF]

theorem wfb_get (v : Nat) (n : String) (s e : Nat) :
    (FieldInfo.get v n s e).wfb = true := by
  simp [FieldInfo.get, getBits_lt]

theorem wfb_get_bit (v : Nat) (n : String) (b : Nat) :
    (FieldInfo.get_bit v n b).wfb = true := by
  rw [FieldInfo.get_bit]; exact wfb_get v n b (b + 1)

theorem wfb_with_decoded_of {f : FieldInfo} {d : Decoded}
    (hf : f.wfb = true) (hd : d.wfb = true) :
    (f.with_decoded d).wfb = true := by
  cases f with
  | mk n s w v dec =>
    simp only [wfb_mk, Bool.and_eq_true] at hf
    simp [FieldInfo.with_decoded, FieldInfo.name, FieldInfo.start,
      FieldInfo.width, FieldInfo.value, hf.1, hd]

theorem wfb_with_description_of {f : FieldInfo} (s : String)
    (hf : f.wfb = true) : (f.with_description s).wfb = true :=
  wfb_with_decoded_of hf (by simp)

theorem describe_bit_some_wfb {f : FieldInfo} {ds : Bool → String}
    {g : FieldInfo} (hf : f.wfb = true) (h : f.describe_bit ds = some g) :
    g.wfb = true := by
  unfold FieldInfo.describe_bit at h
  rcases ha : f.as_bit with _ | b <;> rw [ha] at h
  · exact absurd h (by simp)
  · injection h with h
    exact h ▸ wfb_with_description_of _ hf

theorem describe_ok_wfb {f : FieldInfo}
    {ds : Nat → Except DecodeError String} {g : FieldInfo}
    (hf : f.wfb = true) (h : f.describe ds = .ok g) : g.wfb = true := by
  unfold FieldInfo.describe at h
  rcases hd : ds f.value with e | s <;> rw [hd] at h
  · exact absurd h (by simp)
  · injection h with h
    exact h ▸ wfb_with_description_of _ hf

theorem check_res0_ok_eq {f g : FieldInfo} (h : f.check_res0 = .ok g) :
    g = f := by
  unfold FieldInfo.check_res0 at h
  by_cases hv : f.value = 0
  · rw [if_neg (by simp [hv])] at h; injection h with h; exact h.symm
  · rw [if_pos hv] at h; exact absurd h (by simp)

theorem decode_iss_res0_wfb (iss : Nat) (d : Decoded)
    (h : decode_iss_res0 iss = .ok d) : d.wfb = true := by
  unfold decode_iss_res0 at h
  by_cases hz : iss = 0
  · rw [if_pos hz] at h; injection h with h; rw [← h]; simp
  · rw [if_neg hz] at h; exact absurd h (by simp)

theorem decode_iss_wf_wfb (iss : Nat) (d : Decoded)
    (h : decode_iss_wf iss = .ok d) : d.wfb = true := by
  unfold decode_iss_wf at h
  rcases hcv : (FieldInfo.get_bit iss "CV" 24).describe_bit describe_cv
    with _ | fcv <;> rw [hcv] at h
  · simp at h
  have wcv := describe_bit_some_wfb (wfb_get_bit iss "CV" 24) hcv
  simp only [bind_eq, ofOption_some, ok_bind] at h
  rcases hr : (FieldInfo.get iss "RES0" 1 20).check_res0 with e | fres <;>
    rw [hr] at h
  · simp at h
  have wres : fres.wfb = true := by
    rw [check_res0_ok_eq hr]; exact wfb_get iss "RES0" 1 20
  simp only [ofExcept_ok, ok_bind] at h
  rcases hti : (FieldInfo.get_bit iss "TI" 0).describe_bit
      (fun ti => if ti then "WFE trapped" else "WFI trapped")
    with _ | fti <;> rw [hti] at h
  · simp at h
  have wti := describe_bit_some_wfb (wfb_get_bit iss "TI" 0) hti
  simp only [ofOption_some, ok_bind, pure_eq, Outcome.ok.injEq] at h
  subst h
  simp [wcv, wres, wti, wfb_get]

theorem decode_iss_mcr_wfb (iss : Nat) (d : Decoded)
    (h : decode_iss_mcr iss = .ok d) : d.wfb = true := by
  unfold decode_iss_mcr at h
  rcases hcv : (FieldInfo.get_bit iss "CV" 24).describe_bit describe_cv
    with _ | fcv <;> rw [hcv] at h
  · simp at h
  have wcv := describe_bit_some_wfb (wfb_get_bit iss "CV" 24) hcv
  simp only [bind_eq, ofOption_some, ok_bind] at h
  rcases hdir : (FieldInfo.get_bit iss "Direction" 0).describe_bit
      describe_direction with _ | fdir <;> rw [hdir] at h
  · simp at h
  have wdir := describe_bit_some_wfb (wfb_get_bit iss "Direction" 0) hdir
  simp only [ofOption_some, ok_bind, pure_eq, Outcome.ok.injEq] at h
  subst h
  simp [wcv, wdir, wfb_get]

theorem decode_iss_mcrr_wfb (iss : Nat) (d : Decoded)
    (h : decode_iss_mcrr iss = .ok d) : d.wfb = true := by
  unfold decode_iss_mcrr at h
  rcases hcv : (FieldInfo.get_bit iss "CV" 24).describe_bit describe_cv
    with _ | fcv <;> rw [hcv] at h
  · simp at h
  have wcv := describe_bit_some_wfb (wfb_get_bit iss "CV" 24) hcv
  simp only [bind_eq, ofOption_some, ok_bind] at h
  rcases hr : (FieldInfo.get_bit iss "RES0" 15).check_res0 with e | fres <;>
    rw [hr] at h
  · simp at h
  have wres : fres.wfb = true := by
    rw [check_res0_ok_eq hr]; exact wfb_get_bit iss "RES0" 15
  simp only [ofExcept_ok, ok_bind] at h
  rcases hdir : (FieldInfo.get_bit iss "Direction" 0).describe_bit
      describe_direction with _ | fdir <;> rw [hdir] at h
  · simp at h
  have wdir := describe_bit_some_wfb (wfb_get_bit iss "Direction" 0) hdir
  simp only [ofOption_some, ok_bind, pure_eq, Outcome.ok.injEq] at h
  subst h
  simp [wcv, wres, wdir, wfb_get]

theorem decode_iss_ldc_wfb (iss : Nat) (d : Decoded)
    (h : decode_iss_ldc iss = .ok d) : d.wfb = true := by
  unfold decode_iss_ldc at h
  rcases hcv : (FieldInfo.get_bit iss "CV" 24).describe_bit describe_cv
    with _ | fcv <;> rw [hcv] at h
  · simp at h
  have wcv := describe_bit_some_wfb (wfb_get_bit iss "CV" 24) hcv
  simp only [bind_eq, ofOption_some, ok_bind] at h
  rcases hr : (FieldInfo.get iss "RES0" 10 12).check_res0 with e | fres <;>
    rw [hr] at h
  · simp at h
  have wres : fres.wfb = true := by
    rw [check_res0_ok_eq hr]; exact wfb_get iss "RES0" 10 12
  simp only [ofExcept_ok, ok_bind] at h
  rcases ham : (FieldInfo.get iss "AM" 1 4).describe describe_am
    with e | fam <;> rw [ham] at h
  · simp at h
  have wam := describe_ok_wfb (wfb_get iss "AM" 1 4) ham
  simp only [ofExcept_ok, ok_bind] at h
  rcases hdir : (FieldInfo.get_bit iss "Direction" 0).describe_bit
      describe_direction with _ | fdir <;> rw [hdir] at h
  · simp at h
  have wdir := describe_bit_some_wfb (wfb_get_bit iss "Direction" 0) hdir
  simp only [ofOption_some, ok_bind, pure_eq, Outcome.ok.injEq] at h
  subst h
  simp [wcv, wres, wam, wdir, wfb_get, wfb_get_bit]

theorem decode_iss_instruction_abort_wfb (iss : Nat) (d : Decoded)
    (h : decode_iss_instruction_abort iss = .ok d) : d.wfb = true := by
  unfold decode_iss_instruction_abort at h
  rcases hra : (FieldInfo.get iss "RES0" 13 25).check_res0 with e | fra <;>
    rw [hra] at h
  · simp at h
  have wra : fra.wfb = true := by
    rw [check_res0_ok_eq hra]; exact wfb_get iss "RES0" 13 25
  simp only [bind_eq, ofExcept_ok, ok_bind] at h
  rcases hset : (FieldInfo.get iss "SET" 11 13).describe describe_set
    with e | fset <;> rw [hset] at h
  · simp at h
  have wset := describe_ok_wfb (wfb_get iss "SET" 11 13) hset
  simp only [ofExcept_ok, ok_bind] at h
  rcases hfnv : (FieldInfo.get_bit iss "FnV" 10).describe_bit describe_fnv
    with _ | ffnv <;> rw [hfnv] at h
  · simp at h
  have wfnv := describe_bit_some_wfb (wfb_get_bit iss "FnV" 10) hfnv
  simp only [ofOption_some, ok_bind] at h
  rcases hrb : (FieldInfo.get_bit iss "RES0" 8).check_res0 with e | frb <;>
    rw [hrb] at h
  · simp at h
  have wrb : frb.wfb = true := by
    rw [check_res0_ok_eq hrb]; exact wfb_get_bit iss "RES0" 8
  simp only [ofExcept_ok, ok_bind] at h
  rcases hrc : (FieldInfo.get_bit iss "RES0" 6).check_res0 with e | frc <;>
    rw [hrc] at h
  · simp at h
  have wrc : frc.wfb = true := by
    rw [check_res0_ok_eq hrc]; exact wfb_get_bit iss "RES0" 6
  simp only [ofExcept_ok, ok_bind] at h
  rcases hifsc : (FieldInfo.get iss "IFSC" 0 6).describe describe_fsc
    with e | fifsc <;> rw [hifsc] at h
  · simp at h
  have wifsc := describe_ok_wfb (wfb_get iss "IFSC" 0 6) hifsc
  simp only [ofExcept_ok, ok_bind, pure_eq, Outcome.ok.injEq] at h
  subst h
  simp [wra, wset, wfnv, wrb, wrc, wifsc, wfb_get_bit]

theorem decode_iss_data_abort_wfb (iss : Nat) (d : Decoded)
    (h : decode_iss_data_abort iss = .ok d) : d.wfb = true := by
  unfold decode_iss_data_abort at h
  rcases hisv : (FieldInfo.get_bit iss "ISV" 24).describe_bit describe_isv
    with _ | fisv <;> rw [hisv] at h
  · simp at h
  have wisv := describe_bit_some_wfb (wfb_get_bit iss "ISV" 24) hisv
  simp only [bind_eq, ofOption_some, ok_bind] at h
  rcases hab : fisv.as_bit with _ | b <;> rw [hab] at h
  · simp at h
  simp only [ofOption_some, ok_bind] at h
  cases b <;> simp only [Bool.false_eq_true, if_false, if_true] at h
  · -- ISV clear: single RES0 range
    rcases hr : (FieldInfo.get iss "RES0" 14 24).check_res0 with e | fres <;>
      rw [hr] at h
    · simp at h
    have wres : fres.wfb = true := by
      rw [check_res0_ok_eq hr]; exact wfb_get iss "RES0" 14 24
    simp only [ofExcept_ok, ok_bind, pure_eq] at h
    rcases hset : (FieldInfo.get iss "SET" 11 13).describe describe_set
      with e | fset <;> rw [hset] at h
    · simp at h
    have wset := describe_ok_wfb (wfb_get iss "SET" 11 13) hset
    simp only [ofExcept_ok, ok_bind] at h
    rcases hfnv : (FieldInfo.get_bit iss "FnV" 10).describe_bit describe_fnv
      with _ | ffnv <;> rw [hfnv] at h
    · simp at h
    have wfnv := describe_bit_some_wfb (wfb_get_bit iss "FnV" 10) hfnv
    simp only [ofOption_some, ok_bind] at h
    rcases hwnr : (FieldInfo.get_bit iss "WnR" 6).describe_bit describe_wnr
      with _ | fwnr <;> rw [hwnr] at h
    · simp at h
    have wwnr := describe_bit_some_wfb (wfb_get_bit iss "WnR" 6) hwnr
    simp only [ofOption_some, ok_bind] at h
    rcases hdfsc : (FieldInfo.get iss "DFSC" 0 6).describe describe_fsc
      with e | fdfsc <;> rw [hdfsc] at h
    · simp at h
    have wdfsc := describe_ok_wfb (wfb_get iss "DFSC" 0 6) hdfsc
    simp only [ofExcept_ok, ok_bind, pure_eq, Outcome.ok.injEq] at h
    subst h
    simp [wisv, wres, wset, wfnv, wwnr, wdfsc, wfb_get_bit]
  · -- ISV set: the instruction-syndrome fields
    rcases hsf : (FieldInfo.get_bit iss "SF" 15).describe_bit describe_sf
      with _ | fsf <;> rw [hsf] at h
    · simp at h
    have wsf := describe_bit_some_wfb (wfb_get_bit iss "SF" 15) hsf
    simp only [ofOption_some, ok_bind] at h
    rcases har : (FieldInfo.get_bit iss "AR" 14).describe_bit describe_ar
      with _ | far <;> rw [har] at h
    · simp at h
    have war := describe_bit_some_wfb (wfb_get_bit iss "AR" 14) har
    simp only [ofOption_some, ok_bind, pure_eq] at h
    rcases hset : (FieldInfo.get iss "SET" 11 13).describe describe_set
      with e | fset <;> rw [hset] at h
    · simp at h
    have wset := describe_ok_wfb (wfb_get iss "SET" 11 13) hset
    simp only [ofExcept_ok, ok_bind] at h
    rcases hfnv : (FieldInfo.get_bit iss "FnV" 10).describe_bit describe_fnv
      with _ | ffnv <;> rw [hfnv] at h
    · simp at h
    have wfnv := describe_bit_some_wfb (wfb_get_bit iss "FnV" 10) hfnv
    simp only [ofOption_some, ok_bind] at h
    rcases hwnr : (FieldInfo.get_bit iss "WnR" 6).describe_bit describe_wnr
      with _ | fwnr <;> rw [hwnr] at h
    · simp at h
    have wwnr := describe_bit_some_wfb (wfb_get_bit iss "WnR" 6) hwnr
    simp only [ofOption_some, ok_bind] at h
    rcases hdfsc : (FieldInfo.get iss "DFSC" 0 6).describe describe_fsc
      with e | fdfsc <;> rw [hdfsc] at h
    · simp at h
    have wdfsc := describe_ok_wfb (wfb_get iss "DFSC" 0 6) hdfsc
    simp only [ofExcept_ok, ok_bind, pure_eq, Outcome.ok.injEq] at h
    subst h
    simp [wisv, wsf, war, wset, wfnv, wwnr, wdfsc, wfb_get, wfb_get_bit,
      wfb_with_description_of _ (wfb_get iss "SAS" 22 24)]

theorem ofExcept_ok_iff {x : Except DecodeError α} {a : α} :
    Outcome.ofExcept x = .ok a ↔ x = .ok a := by
  cases x <;> simp [Outcome.ofExcept]

theorem bind_pure_some_inv {X : Outcome Decoded} {str : String}
    {cls : String} {od : Option Decoded}
    (h : X.bind (fun dd => .ok (str, some dd)) = .ok (cls, od)) :
    ∃ dd, X = .ok dd ∧ od = some dd ∧ cls = str := by
  cases X <;> simp_all [Outcome.bind]

/-- Any ISS decoding produced by the EC dispatch satisfies the width
invariant. -/
theorem decodeClassIss_ok_wfb (ec iss : Nat) (cls : String)
    (od : Option Decoded) (h : decodeClassIss ec iss = .ok (cls, od)) :
    ∀ dd, od = some dd → dd.wfb = true := by
  intro dd hod
  subst hod
  unfold decodeClassIss at h
  simp only [bind_eq, pure_eq] at h
  split at h
  all_goals first
    | exact absurd h (by simp)
    | (obtain ⟨dd2, hX, hod2, hcls⟩ := bind_pure_some_inv h
       injection hod2 with hdd
       rw [hdd]
       first
         | exact decode_iss_res0_wfb iss _ (ofExcept_ok_iff.mp hX)
         | exact decode_iss_wf_wfb iss _ hX
         | exact decode_iss_mcr_wfb iss _ hX
         | exact decode_iss_mcrr_wfb iss _ hX
         | exact decode_iss_ldc_wfb iss _ hX
         | exact decode_iss_instruction_abort_wfb iss _ hX
         | exact decode_iss_data_abort_wfb iss _ hX)

/-- C7: width invariant — in every successful decode, every `FieldInfo` at
every nesting level of the result satisfies `value < 2^width` (expressed by
the recursive check `Decoded.wfb`). -/
theorem c7_width_invariant (v : Nat) (d : Decoded)
    (h : decode v = .ok d) : d.wfb = true := by
  by_cases hres : getBits v 37 64 = 0
  · rw [decode_eq_of_res0 v hres] at h
    rcases hci : decodeClassIss (getBits v 26 32) (getBits v 0 25) with
      _ | e | ci <;> rw [hci] at h
    · simp at h
    · simp at h
    · simp only [ok_bind, Outcome.ok.injEq] at h
      subst h
      have h6 : ∀ dd, ci.2 = some dd → dd.wfb = true :=
        decodeClassIss_ok_wfb (getBits v 26 32) (getBits v 0 25) ci.1 ci.2
          (by rw [hci])
      rcases hc2 : ci.2 with _ | dd
      · simp
        exact ⟨getBits_lt v 32 37, getBits_lt v 26 32, getBits_lt v 25 26,
          getBits_lt v 0 25⟩
      · simp [h6 dd hc2]
        exact ⟨getBits_lt v 32 37, getBits_lt v 26 32, getBits_lt v 25 26,
          getBits_lt v 0 25⟩
  · exact absurd h (by simp [decode, FieldInfo.get, check_res0_mk, hres])

/-- Witness for C7 at the concrete input 0. -/
theorem c7_width_invariant_witness :
    (Decoded.mk (some "Unknown reason")
      [.mk "RES0" 37 27 0 none,
       .mk "ISS2" 32 5 0 none,
       .mk "EC" 26 6 0 (some (.mk (some "Unknown reason") [])),
       .mk "IL" 25 1 0 (some (.mk (some "16-bit instruction trapped") [])),
       .mk "ISS" 0 25 0 (some (.mk (some "ISS is RES0") []))]).wfb = true :=
  c7_width_invariant 0 _ rfl

/-!
### C9: rendering and re-parsing of field values

`FieldInfo::value_string` renders a single-bit field as "true"/"false" and a
multi-bit field as zero-padded lowercase hexadecimal with a "0x" prefix and
`(width + 3) / 4` digits; `parse_number` parses a "0x"-prefixed string as
hexadecimal and anything else as decimal (as `u64::from_str_radix` and
`str::parse::<u64>` do, including the overflow error at `2^64`; the optional
leading sign accepted by the Rust parsers is not modelled, as no rendered
value contains one).
-/

/-- The lowercase hexadecimal digits of `n`, most significant first (the
digits printed by Rust's `{:x}` formatting). -/
def hexDigits (n : Nat) : List Char :=
  if h : n < 16 then [Nat.digitChar n]
  else hexDigits (n / 16) ++ [Nat.digitChar (n % 16)]
  termination_by n
  decreasing_by exact Nat.div_lt_self (by omega) (by omega)

/-- The numeric value of a hexadecimal digit character, if it is one
(either case, as accepted by `u64::from_str_radix` with radix 16). -/
def hexDigitValue (c : Char) : Option Nat :=
  if '0' ≤ c ∧ c ≤ '9' then some (c.toNat - '0'.toNat)
  else if 'a' ≤ c ∧ c ≤ 'f' then some (c.toNat - 'a'.toNat + 10)
  else if 'A' ≤ c ∧ c ≤ 'F' then some (c.toNat - 'A'.toNat + 10)
  else none

/-- Accumulating hexadecimal parser over a digit list, failing on a
non-digit or on overflow past `2^64` (the `u64` range). -/
def parseHexAcc (acc : Nat) : List Char → Option Nat
  | [] => some acc
  | c :: cs =>
    match hexDigitValue c with
    | none => none
    | some d =>
      if acc * 16 + d < 2 ^ 64 then parseHexAcc (acc * 16 + d) cs else none

/-- `u64::from_str_radix(s, 16)`: an empty digit string is invalid. -/
def parseHexChars : List Char → Option Nat
  | [] => none
  | cs => parseHexAcc 0 cs

/-- The numeric value of a decimal digit character, if it is one. -/
def decDigitValue (c : Char) : Option Nat :=
  if '0' ≤ c ∧ c ≤ '9' then some (c.toNat - '0'.toNat) else none

/-- Accumulating decimal parser over a digit list, failing on a non-digit
or on overflow past `2^64`. -/
def parseDecAcc (acc : Nat) : List Char → Option Nat
  | [] => some acc
  | c :: cs =>
    match decDigitValue c with
    | none => none
    | some d =>
      if acc * 10 + d < 2 ^ 64 then parseDecAcc (acc * 10 + d) cs else none

/-- `str::parse::<u64>`: an empty string is invalid. -/
def parseDecChars : List Char → Option Nat
  | [] => none
  | cs => parseDecAcc 0 cs

/-- `parse_number` from `src/lib.rs`: a string starting with "0x" is parsed
as hexadecimal, anything else as decimal. -/
def parse_number (s : String) : Option Nat :=
  match s.data with
  | '0' :: 'x' :: hex => parseHexChars hex
  | _ => parseDecChars s.data

/-- `FieldInfo::value_string` from `src/lib.rs`: "true"/"false" for a
single-bit field, and otherwise `{:#0N$x}` formatting with
`N = (width + 3) / 4 + 2`: a "0x" prefix followed by the value in lowercase
hexadecimal zero-padded to `(width + 3) / 4` digits. -/
def FieldInfo.value_string (f : FieldInfo) : String :=
  if f.width = 1 then (if f.value = 1 then "true" else "false")
  else
    "0x" ++ String.mk
      (List.replicate ((f.width + 3) / 4 - (hexDigits f.value).length) '0'
        ++ hexDigits f.value)

theorem hexDigitValue_digitChar : ∀ d < 16,
    hexDigitValue (Nat.digitChar d) = some d := by decide

theorem hexDigits_ne_nil (n : Nat) : hexDigits n ≠ [] := by
  rw [hexDigits]; split <;> simp

theorem hexDigits_length_ge (n : Nat) : 1 ≤ (hexDigits n).length := by
  rcases h : hexDigits n with _ | ⟨c, cs⟩
  · exact absurd h (hexDigits_ne_nil n)
  · simp

theorem parseHexAcc_append (acc : Nat) (cs1 cs2 : List Char) :
    parseHexAcc acc (cs1 ++ cs2) =
      match parseHexAcc acc cs1 with
      | none => none
      | some a => parseHexAcc a cs2 := by
  induction cs1 generalizing acc with
  | nil => simp [parseHexAcc]
  | cons c cs ih =>
    simp only [List.cons_append, parseHexAcc]
    rcases h : hexDigitValue c with _ | d
    · simp
    · simp only []
      by_cases hlt : acc * 16 + d < 2 ^ 64
      · simp only [if_pos hlt]; exact ih _
      · simp only [if_neg hlt]

theorem parseHexAcc_replicate_zero (k : Nat) (cs : List Char) :
    parseHexAcc 0 (List.replicate k '0' ++ cs) = parseHexAcc 0 cs := by
  induction k with
  | zero => simp
  | succ k ih =>
    rw [show List.replicate (k + 1) '0' ++ cs =
      '0' :: (List.replicate k '0' ++ cs) by simp [List.replicate_succ]]
    simpa [parseHexAcc, hexDigitValue] using ih

theorem parseHexAcc_hexDigits (n : Nat) : ∀ acc : Nat,
    acc * 16 ^ (hexDigits n).length + n < 2 ^ 64 →
    parseHexAcc acc (hexDigits n) =
      some (acc * 16 ^ (hexDigits n).length + n) := by
  induction n using Nat.strong_induction_on with
  | _ n ih =>
    intro acc hbound
    by_cases h16 : n < 16
    · rw [hexDigits, dif_pos h16] at hbound ⊢
      simp only [List.length_singleton, pow_one] at hbound ⊢
      simp only [parseHexAcc, hexDigitValue_digitChar n h16]
      rw [if_pos hbound]
    · rw [hexDigits, dif_neg h16] at hbound ⊢
      have hlen : ((hexDigits (n / 16)) ++
          [Nat.digitChar (n % 16)]).length =
          (hexDigits (n / 16)).length + 1 := by simp
      rw [hlen] at hbound ⊢
      set L := (hexDigits (n / 16)).length with hL
      have hsplit : acc * 16 ^ (L + 1) + n =
          (acc * 16 ^ L + n / 16) * 16 + n % 16 := by
        rw [pow_succ]
        have hdm : n / 16 * 16 + n % 16 = n := by omega
        calc acc * (16 ^ L * 16) + n
            = acc * 16 ^ L * 16 + (n / 16 * 16 + n % 16) := by
              rw [hdm]; ring
          _ = (acc * 16 ^ L + n / 16) * 16 + n % 16 := by ring
      have h1 : (acc * 16 ^ L + n / 16) * 16 + n % 16 < 2 ^ 64 := by
        rw [← hsplit]; exact hbound
      have hsub : acc * 16 ^ L + n / 16 < 2 ^ 64 := by
        generalize hA : acc * 16 ^ L = A at h1 ⊢
        omega
      rw [parseHexAcc_append]
      rw [ih (n / 16) (Nat.div_lt_self (by omega) (by omega)) acc
        (by generalize hA : acc * 16 ^ L = A at h1 ⊢; omega)]
      simp only [parseHexAcc, hexDigitValue_digitChar (n % 16)
        (Nat.mod_lt _ (by norm_num))]
      rw [if_pos h1]
      exact congrArg some hsplit.symm

theorem parseHexChars_roundtrip (v : Nat) (hv : v < 2 ^ 64) (k : Nat) :
    parseHexChars (List.replicate k '0' ++ hexDigits v) = some v := by
  have hne : List.replicate k '0' ++ hexDigits v ≠ [] := by
    simp [hexDigits_ne_nil v]
  rcases hl : List.replicate k '0' ++ hexDigits v with _ | ⟨c, cs⟩
  · exact absurd hl hne
  · rw [show parseHexChars (c :: cs) = parseHexAcc 0 (c :: cs) from rfl,
      ← hl, parseHexAcc_replicate_zero]
    have := parseHexAcc_hexDigits v 0 (by simpa using hv)
    simpa using this

/-- C9: for every field whose width exceeds 1, re-parsing the hexadecimal
rendering `value_string` with `parse_number` yields exactly the field's
value; for a 1-bit field, `value_string` is exactly "true" when the value
is 1 and exactly "false" when it is 0. -/
theorem c9_value_string_roundtrip (f : FieldInfo) (hv : f.value < 2 ^ 64) :
    (1 < f.width → parse_number f.value_string = some f.value) ∧
    (f.width = 1 →
      (f.value = 1 → f.value_string = "true") ∧
      (f.value = 0 → f.value_string = "false")) := by
  constructor
  · intro hw
    have hne : ¬ f.width = 1 := by omega
    rw [FieldInfo.value_string, if_neg hne]
    have hdata : (("0x" : String) ++ String.mk
        (List.replicate ((f.width + 3) / 4 - (hexDigits f.value).length) '0'
          ++ hexDigits f.value)).data =
        '0' :: 'x' :: (List.replicate
          ((f.width + 3) / 4 - (hexDigits f.value).length) '0'
          ++ hexDigits f.value) := rfl
    rw [parse_number, hdata]
    exact parseHexChars_roundtrip f.value hv _
  · intro hw
    refine ⟨fun h1 => ?_, fun h0 => ?_⟩
    · rw [FieldInfo.value_string, if_pos hw, if_pos h1]
    · rw [FieldInfo.value_string, if_pos hw, if_neg (by omega)]

/-- Witness for C9 at two concrete fields: the 6-bit DFSC field of value 16
(rendered "0x10") and the 1-bit IL field of value 1 (rendered "true"). -/
theorem c9_value_string_roundtrip_witness :
    (parse_number (FieldInfo.mk "DFSC" 0 6 16 none).value_string =
      some 16) ∧
    ((FieldInfo.mk "IL" 25 1 1 none).value_string = "true") := by
  constructor
  · exact (c9_value_string_roundtrip (.mk "DFSC" 0 6 16 none)
      (by norm_num [FieldInfo.value])).1 (by norm_num [FieldInfo.width])
  · exact ((c9_value_string_roundtrip (.mk "IL" 25 1 1 none)
      (by norm_num [FieldInfo.value])).2 rfl).1 rfl

/-!
### C10: totality and panic-freedom

`Outcome.panicked` marks exactly the failure of the `assert!(width == 1)`
inside `as_bit`/`describe_bit`; proving that `decode` never returns it shows
both that the assertion never fires (every field handed to a boolean
describer is built by `get_bit` and so has width 1) and that `decode` is
total, returning `Ok` or a `DecodeError` on every input.
-/

theorem bind_ne_panicked {x : Outcome α} {f : α → Outcome β}
    (hx : x ≠ .panicked) (hf : ∀ a, f a ≠ .panicked) :
    x.bind f ≠ .panicked := by
  cases x <;> simp_all [Outcome.bind]

theorem ofExcept_ne_panicked (e : Except DecodeError α) :
    Outcome.ofExcept e ≠ .panicked := by
  cases e <;> simp [Outcome.ofExcept]

theorem decode_iss_wf_no_panic (iss : Nat) :
    decode_iss_wf iss ≠ .panicked := by
  unfold decode_iss_wf
  simp only [bind_eq, describe_bit_get_bit, ofOption_some, ok_bind]
  rcases h : (FieldInfo.get iss "RES0" 1 20).check_res0 with e | f <;>
    simp [h, Outcome.bind]

theorem decode_iss_mcr_no_panic (iss : Nat) :
    decode_iss_mcr iss ≠ .panicked := by
  unfold decode_iss_mcr
  simp [bind_eq, describe_bit_get_bit, ofOption_some, ok_bind]

theorem decode_iss_mcrr_no_panic (iss : Nat) :
    decode_iss_mcrr iss ≠ .panicked := by
  unfold decode_iss_mcrr
  simp only [bind_eq, describe_bit_get_bit, ofOption_some, ok_bind]
  rcases h : (FieldInfo.get_bit iss "RES0" 15).check_res0 with e | f <;>
    simp [h, Outcome.bind]

theorem decode_iss_ldc_no_panic (iss : Nat) :
    decode_iss_ldc iss ≠ .panicked := by
  unfold decode_iss_ldc
  simp only [bind_eq, describe_bit_get_bit, ofOption_some, ok_bind]
  rcases h : (FieldInfo.get iss "RES0" 10 12).check_res0 with e | f <;>
    simp only [h, ofExcept_error, ofExcept_ok, error_bind, ok_bind]
  · simp
  rcases h2 : (FieldInfo.get iss "AM" 1 4).describe describe_am with
    e2 | f2 <;> simp [h2, Outcome.bind]

theorem decode_iss_instruction_abort_no_panic (iss : Nat) :
    decode_iss_instruction_abort iss ≠ .panicked := by
  unfold decode_iss_instruction_abort
  simp only [bind_eq, describe_bit_get_bit, ofOption_some, ok_bind]
  rcases h1 : (FieldInfo.get iss "RES0" 13 25).check_res0 with e | f1 <;>
    simp only [h1, ofExcept_error, ofExcept_ok, error_bind, ok_bind]
  · simp
  rcases h2 : (FieldInfo.get iss "SET" 11 13).describe describe_set with
    e | f2 <;> simp only [h2, ofExcept_error, ofExcept_ok, error_bind,
      ok_bind]
  · simp
  rcases h3 : (FieldInfo.get_bit iss "RES0" 8).check_res0 with e | f3 <;>
    simp only [h3, ofExcept_error, ofExcept_ok, error_bind, ok_bind]
  · simp
  rcases h4 : (FieldInfo.get_bit iss "RES0" 6).check_res0 with e | f4 <;>
    simp only [h4, ofExcept_error, ofExcept_ok, error_bind, ok_bind]
  · simp
  rcases h5 : (FieldInfo.get iss "IFSC" 0 6).describe describe_fsc with
    e | f5 <;> simp [h5, Outcome.bind]

theorem decode_iss_data_abort_no_panic (iss : Nat) :
    decode_iss_data_abort iss ≠ .panicked := by
  unfold decode_iss_data_abort
  simp only [bind_eq, describe_bit_get_bit, ofOption_some, ok_bind,
    mk_as_bit, pure_eq]
  split
  · -- ISV set: the instruction-syndrome branch
    try simp only [ok_bind]
    rcases h2 : (FieldInfo.get iss "SET" 11 13).describe describe_set with
      e | f2 <;> simp only [h2, ofExcept_error, ofExcept_ok, error_bind,
        ok_bind]
    · simp
    rcases h3 : (FieldInfo.get iss "DFSC" 0 6).describe describe_fsc with
      e | f3 <;> simp [h3, Outcome.bind]
  · -- ISV clear: the RES0 branch
    rcases hr : (FieldInfo.get iss "RES0" 14 24).check_res0 with e | fr <;>
      simp only [hr, ofExcept_error, ofExcept_ok, error_bind, ok_bind]
    · simp
    rcases h2 : (FieldInfo.get iss "SET" 11 13).describe describe_set with
      e | f2 <;> simp only [h2, ofExcept_error, ofExcept_ok, error_bind,
        ok_bind]
    · simp
    rcases h3 : (FieldInfo.get iss "DFSC" 0 6).describe describe_fsc with
      e | f3 <;> simp [h3, Outcome.bind]

theorem decodeClassIss_no_panic (ec iss : Nat) :
    decodeClassIss ec iss ≠ .panicked := by
  unfold decodeClassIss
  simp only [bind_eq, pure_eq]
  split
  all_goals first
    | exact bind_ne_panicked (ofExcept_ne_panicked _) (fun a => by simp)
    | exact bind_ne_panicked (decode_iss_wf_no_panic iss) (fun a => by simp)
    | exact bind_ne_panicked (decode_iss_mcr_no_panic iss)
        (fun a => by simp)
    | exact bind_ne_panicked (decode_iss_mcrr_no_panic iss)
        (fun a => by simp)
    | exact bind_ne_panicked (decode_iss_ldc_no_panic iss)
        (fun a => by simp)
    | exact bind_ne_panicked (decode_iss_instruction_abort_no_panic iss)
        (fun a => by simp)
    | exact bind_ne_panicked (decode_iss_data_abort_no_panic iss)
        (fun a => by simp)
    | simp

/-- C10: `decode` is total and panic-free on every input: it returns `Ok`
or a `DecodeError`, never the modelled panic — in particular the
width-equals-1 assertion inside `describe_bit` never fires, because every
field handed to a boolean describer is built by `get_bit`. -/
theorem c10_total_no_panic :
    ∀ v : Nat, (∃ d, decode v = .ok d) ∨ (∃ e, decode v = .error e) := by
  intro v
  have hnp : decode v ≠ .panicked := by
    unfold decode
    simp only [bind_eq, describe_bit_get_bit, ofOption_some, ok_bind]
    rcases h : (FieldInfo.get v "RES0" 37 64).check_res0 with e | f
    · simp [h, Outcome.bind]
    · simp only [h, ofExcept_ok, ok_bind]
      exact bind_ne_panicked (decodeClassIss_no_panic _ _)
        (fun a => by simp)
  rcases hd : decode v with _ | e | d
  · exact absurd hd hnp
  · exact .inr ⟨e, rfl⟩
  · exact .inl ⟨d, rfl⟩

end Esr
